import Mathlib

/-!
# Verification of the giveaway bot core (`src/giveawaybot.py`)

A shallow embedding of the giveaway lifecycle core of `giveawaybot.py`:
the store schema (`giveaways`, `participants`), the entry collector
(`GiveawayView.enter_button`), the create command (`epicgiveaway`), the
expiry scanner (`check_giveaways`), and the startup credential check.

External collaborators (the chat SDK and the randomness source) are
modelled as an environment `Env` of oracles: whether a channel lookup
succeeds (`bot.get_channel`), whether `channel.fetch_message` succeeds,
whether `msg.edit` succeeds, and which indices `random.sample` picks.
Store mutations are tracked in `Store`; transport side effects are
recorded as an ordered `Effect` trace, so ordering properties (edit
before the `ended` commit) are visible.
-/

namespace GiveawayBot

/-- A row of the `giveaways` table
(`giveaways(id, message_id, channel_id, end_time, prize, winners_count, host_id, ended)`). -/
structure Giveaway where
  id : Nat
  message_id : Nat
  channel_id : Nat
  end_time : Int
  prize : String
  winners_count : Int
  host_id : Nat
  ended : Bool
deriving DecidableEq, Repr

/-- The relational store: the `giveaways` table and the `participants` table.
A participant row is a `(giveaway_id, user_id)` pair; the `UNIQUE (giveaway_id, user_id)`
constraint (implied by `ON CONFLICT DO NOTHING`) is the `Nodup` invariant on the list. -/
structure Store where
  giveaways : List Giveaway
  participants : List (Nat × Nat)
deriving DecidableEq, Repr

/-- Content of the rewritten announcement embed in `check_giveaways`:
either the insufficient-participants notice or the winner list. -/
inductive DrawResult where
  | insufficient : DrawResult
  | winners : List Nat → DrawResult
deriving DecidableEq, Repr

/-- Transport / SQL side effects, recorded in program order. -/
inductive Effect where
  | ackEphemeral : Effect
  | publishAnnouncement : Nat → Nat → Effect
  | attachJoinView : Nat → Nat → Effect
  | editAnnouncement : Nat → Nat → DrawResult → Effect
  | sqlInsertGiveaway : Nat → Effect
  | sqlSetEnded : Nat → Effect
deriving DecidableEq, Repr

/-- Python exceptions that can escape the code paths we model:
`ValueError` from `random.sample`, and a failing `msg.edit` (e.g. `discord.HTTPException`),
which `check_giveaways` does not catch. -/
inductive PyErr where
  | valueError : PyErr
  | editFailed : PyErr
deriving DecidableEq, Repr

/-- The external environment of one scanner tick: the current time (`NOW()`),
the chat SDK oracles and the randomness oracle.
`pick n k` is the list of indices `random.sample` selects out of a population of size `n`. -/
structure Env where
  now : Int
  channelExists : Nat → Bool
  fetchMessageOk : Nat → Nat → Bool
  editOk : Nat → Nat → Bool
  pick : Nat → Nat → List Nat

/-- Contract of Python's `random.sample` index choice: whenever `k ≤ n`, it returns
`k` distinct indices below `n` (the sample is without replacement). -/
def SampleOk (pick : Nat → Nat → List Nat) : Prop :=
  ∀ n k : Nat, k ≤ n →
    (pick n k).length = k ∧ (pick n k).Nodup ∧ ∀ i ∈ pick n k, i < n

/-- The ephemeral acknowledgment `enter_button` sends in every case. -/
def joinAck : String := "\u2705 You\u0027re in!"

/-- `GiveawayView.enter_button`: `INSERT INTO participants (giveaway_id, user_id)
VALUES ($1, $2) ON CONFLICT DO NOTHING`, then the ephemeral acknowledgment.
No column of `giveaways` is read: there is no open/ended check. -/
def join (s : Store) (gid uid : Nat) : Store × String :=
  (if (gid, uid) ∈ s.participants then s
   else { s with participants := s.participants ++ [(gid, uid)] },
   joinAck)

/-- Modelled from the spec: the `CREATE TABLE` statements are not in `src/`;
the spec's store schema (§6) declares `ended bool default false`, which supplies the
value for the `INSERT INTO giveaways` that omits the `ended` column. -/
def endedDefault : Bool := false

/-- The row the `epicgiveaway` INSERT persists
(`INSERT INTO giveaways (message_id, channel_id, end_time, prize, winners_count, host_id) ... RETURNING id`).
`newId` is the store-generated surrogate id. -/
def newGiveawayRow (msgId channelId : Nat) (endTime : Int) (item : String)
    (winners : Int) (hostId newId : Nat) : Giveaway :=
  { id := newId, message_id := msgId, channel_id := channelId, end_time := endTime,
    prize := item, winners_count := winners, host_id := hostId, ended := endedDefault }

/-- The `epicgiveaway` slash command body: ephemeral acknowledgment, compute
`end_time = utcnow() + timedelta(minutes=duration)` (time in seconds), post the
announcement embed (obtaining `msgId`), insert the giveaway row, attach the join view.
No validation of `duration` or `winners` is performed anywhere in the body. -/
def epicgiveaway (now : Int) (msgId newId : Nat) (s : Store)
    (title sponsor : String) (duration : Int) (item : String) (winners : Int)
    (channelId hostId : Nat) : Store × List Effect :=
  let _ := title
  let _ := sponsor
  let end_time : Int := now + 60 * duration
  let row := newGiveawayRow msgId channelId end_time item winners hostId newId
  ({ s with giveaways := s.giveaways ++ [row] },
   [Effect.ackEphemeral, Effect.publishAnnouncement channelId msgId,
    Effect.sqlInsertGiveaway newId, Effect.attachJoinView msgId newId])

/-- `SELECT user_id FROM participants WHERE giveaway_id = $1`, in table order. -/
def participantsOf (s : Store) (gid : Nat) : List Nat :=
  (s.participants.filter (fun p => p.1 == gid)).map (fun p => p.2)

/-- Python's `random.sample(l, k)`: raises `ValueError` when `k` is negative or larger
than the population, otherwise returns the elements at the picked indices. -/
def pySample (pick : Nat → Nat → List Nat) (l : List Nat) (k : Int) :
    Except PyErr (List Nat) :=
  if k < 0 ∨ (l.length : Int) < k then Except.error PyErr.valueError
  else Except.ok ((pick l.length k.toNat).map (fun i => l.getD i 0))

/-- The branch at line 182 of `check_giveaways`: insufficient participants, or
`random.sample(user_ids, winners_count)`. -/
def drawResult (pick : Nat → Nat → List Nat) (user_ids : List Nat) (wc : Int) :
    Except PyErr DrawResult :=
  if (user_ids.length : Int) < wc then Except.ok DrawResult.insufficient
  else (pySample pick user_ids wc).map DrawResult.winners

/-- `UPDATE giveaways SET ended = TRUE WHERE id = $1`. -/
def markEnded (s : Store) (gid : Nat) : Store :=
  { s with giveaways :=
      s.giveaways.map (fun g => if g.id = gid then { g with ended := true } else g) }

/-- The body of the `for row in rows` loop of `check_giveaways` for one due row:
fetch participants; `continue` when the channel is gone or `fetch_message` raises
(caught by the bare `except`); compute the draw result (`random.sample` may raise);
`await msg.edit(...)` (uncaught on failure); then commit `ended = TRUE`. -/
def processRecord (env : Env) (s : Store) (g : Giveaway) :
    Except PyErr (Store × List Effect) :=
  if env.channelExists g.channel_id = false then Except.ok (s, [])
  else if env.fetchMessageOk g.channel_id g.message_id = false then Except.ok (s, [])
  else
    match drawResult env.pick (participantsOf s g.id) g.winners_count with
    | Except.error e => Except.error e
    | Except.ok r =>
      if env.editOk g.channel_id g.message_id then
        Except.ok (markEnded s g.id,
          [Effect.editAnnouncement g.channel_id g.message_id r, Effect.sqlSetEnded g.id])
      else Except.error PyErr.editFailed

/-- The `for` loop over the due rows: sequential, stops at the first uncaught
exception, which then escapes the task body; updates already executed persist. -/
def runTickGo (env : Env) : List Giveaway → Store → List Effect →
    Store × List Effect × Option PyErr
  | [], s, effs => (s, effs, none)
  | g :: rest, s, effs =>
    match processRecord env s g with
    | Except.ok (s1, es) => runTickGo env rest s1 (effs ++ es)
    | Except.error e => (s, effs, some e)

/-- `SELECT * FROM giveaways WHERE end_time <= NOW() AND ended = FALSE`, in table order. -/
def dueRows (s : Store) (now : Int) : List Giveaway :=
  s.giveaways.filter (fun g => decide (g.end_time ≤ now) && !g.ended)

/-- One tick of the `check_giveaways` background task. -/
def check_giveaways (env : Env) (s : Store) : Store × List Effect × Option PyErr :=
  runTickGo env (dueRows s env.now) s []

/-- Observable startup steps of the process (module body, `bot.run`, `on_ready`). -/
inductive StartupStep where
  | printTokenMissing : StartupStep
  | exitProcess : StartupStep
  | networkLogin : StartupStep
  | dbConnect : Bool → StartupStep
  | startTasks : StartupStep
deriving DecidableEq, Repr

/-- Startup: `TOKEN = os.getenv("BOT_TOKEN")`; `if not TOKEN: print(...); exit()`
(falsy also for the empty string); otherwise `bot.run(TOKEN)` logs in to the gateway
and `on_ready` runs `asyncpg.create_pool(DATABASE_URL)` — which raises inside the
handler when the connection string is absent, so the tasks never start but the
process keeps running. `DATABASE_URL` is never checked before the network login. -/
def startup (token dbUrl : Option String) : List StartupStep :=
  if token.getD "" = "" then
    [StartupStep.printTokenMissing, StartupStep.exitProcess]
  else
    match dbUrl with
    | none => [StartupStep.networkLogin, StartupStep.dbConnect false]
    | some _ => [StartupStep.networkLogin, StartupStep.dbConnect true, StartupStep.startTasks]

/-! ## Helper lemmas -/

/-- Taking the first `k` indices is one valid `random.sample` index choice. -/
theorem sampleOk_range : SampleOk (fun _ k => List.range k) := by
  intro n k hk
  refine ⟨by simp, List.nodup_range k, fun i hi => ?_⟩
  exact lt_of_lt_of_le (List.mem_range.mp hi) hk

/-- When `0 ≤ k ≤ |l|` and the population has no duplicates, `random.sample`
succeeds and returns `k` distinct members of the population. -/
theorem pySample_ok (pick : Nat → Nat → List Nat) (l : List Nat) (k : Int)
    (hp : SampleOk pick) (hl : l.Nodup) (h0 : 0 ≤ k) (hk : k ≤ (l.length : Int)) :
    ∃ ws, pySample pick l k = Except.ok ws ∧ (ws.length : Int) = k ∧
      ws.Nodup ∧ ∀ u ∈ ws, u ∈ l := by
  have hkn : k.toNat ≤ l.length := by omega
  obtain ⟨hlen, hnd, hlt⟩ := hp l.length k.toNat hkn
  refine ⟨(pick l.length k.toNat).map (fun i => l.getD i 0), ?_, ?_, ?_, ?_⟩
  · unfold pySample
    rw [if_neg (by omega)]
  · rw [List.length_map, hlen]
    omega
  · refine List.Nodup.map_on ?_ hnd
    intro i hi j hj hij
    have hi2 : i < l.length := hlt i hi
    have hj2 : j < l.length := hlt j hj
    rw [List.getD_eq_getElem l 0 hi2, List.getD_eq_getElem l 0 hj2] at hij
    exact (List.Nodup.getElem_inj_iff hl).mp hij
  · intro u hu
    obtain ⟨i, hi, rfl⟩ := List.mem_map.mp hu
    have hi2 : i < l.length := hlt i hi
    rw [List.getD_eq_getElem l 0 hi2]
    exact List.getElem_mem hi2

/-- The `UNIQUE (giveaway_id, user_id)` invariant makes the fetched user id list
for one giveaway duplicate-free. -/
theorem participantsOf_nodup (s : Store) (gid : Nat) (h : s.participants.Nodup) :
    (participantsOf s gid).Nodup := by
  unfold participantsOf
  refine List.Nodup.map_on ?_ (List.Nodup.filter _ h)
  intro p hp q hq hpq
  have hp1 : p.1 = gid := by
    have := (List.mem_filter.mp hp).2
    simpa using this
  have hq1 : q.1 = gid := by
    have := (List.mem_filter.mp hq).2
    simpa using this
  exact Prod.ext (hp1.trans hq1.symm) hpq

/-- After `UPDATE giveaways SET ended = TRUE WHERE id = gid`, every row with
that id reads `ended = TRUE`. -/
theorem markEnded_ended (s : Store) (gid : Nat) :
    ∀ g ∈ (markEnded s gid).giveaways, g.id = gid → g.ended = true := by
  intro g hg hid
  unfold markEnded at hg
  obtain ⟨g0, hg0, hmap⟩ := List.mem_map.mp hg
  by_cases h : g0.id = gid
  · rw [if_pos h] at hmap
    rw [← hmap]
  · rw [if_neg h] at hmap
    rw [← hmap] at hid
    exact absurd hid h

/-- A completed per-record draw: when the channel lookup, the message fetch and the
edit all succeed and the draw result computes to `r`, the record's processing commits
`ended = TRUE` and the trace is the edit followed by the SQL update. -/
theorem processRecord_eq_of_ok (env : Env) (s : Store) (g : Giveaway) (r : DrawResult)
    (hc : env.channelExists g.channel_id = true)
    (hm : env.fetchMessageOk g.channel_id g.message_id = true)
    (he : env.editOk g.channel_id g.message_id = true)
    (hd : drawResult env.pick (participantsOf s g.id) g.winners_count = Except.ok r) :
    processRecord env s g = Except.ok (markEnded s g.id,
      [Effect.editAnnouncement g.channel_id g.message_id r, Effect.sqlSetEnded g.id]) := by
  unfold processRecord
  rw [hc, hm, hd, he]
  simp

/-! ## C1: winner selection on a due giveaway -/

/-- C1: for a draw of a due giveaway that completes (channel found, message fetched,
edit succeeded; participant rows unique per the store constraint; `winners_count ≥ 1`
per the data model): with at least `winners_count` recorded participants the result
is exactly `winners_count` distinct user ids, each a recorded participant, with no
duplicates; with fewer participants no winners are drawn and the
insufficient-participants notice is shown; in both cases the row is marked
`ended = TRUE`. -/
theorem draw_due_giveaway_correct (env : Env) (s : Store) (g : Giveaway)
    (hp : SampleOk env.pick) (hnd : s.participants.Nodup) (hw : 1 ≤ g.winners_count)
    (hc : env.channelExists g.channel_id = true)
    (hm : env.fetchMessageOk g.channel_id g.message_id = true)
    (he : env.editOk g.channel_id g.message_id = true) :
    ∃ r, processRecord env s g =
        Except.ok (markEnded s g.id,
          [Effect.editAnnouncement g.channel_id g.message_id r, Effect.sqlSetEnded g.id]) ∧
      (((participantsOf s g.id).length : Int) < g.winners_count →
        r = DrawResult.insufficient) ∧
      (g.winners_count ≤ ((participantsOf s g.id).length : Int) →
        ∃ ws, r = DrawResult.winners ws ∧ (ws.length : Int) = g.winners_count ∧
          ws.Nodup ∧ ∀ u ∈ ws, u ∈ participantsOf s g.id) ∧
      (∀ g2 ∈ (markEnded s g.id).giveaways, g2.id = g.id → g2.ended = true) := by
  have hP := participantsOf_nodup s g.id hnd
  by_cases hcase : ((participantsOf s g.id).length : Int) < g.winners_count
  · refine ⟨DrawResult.insufficient,
      processRecord_eq_of_ok env s g _ hc hm he ?_, fun _ => rfl, ?_,
      markEnded_ended s g.id⟩
    · unfold drawResult
      rw [if_pos hcase]
    · intro hle
      exact absurd hle (not_le.mpr hcase)
  · push_neg at hcase
    obtain ⟨ws, hws, hlen, hwnd, hmem⟩ :=
      pySample_ok env.pick (participantsOf s g.id) g.winners_count hp hP (by omega) hcase
    refine ⟨DrawResult.winners ws,
      processRecord_eq_of_ok env s g _ hc hm he ?_, ?_, fun _ => ⟨ws, rfl, hlen, hwnd, hmem⟩,
      markEnded_ended s g.id⟩
    · unfold drawResult
      rw [if_neg (not_lt.mpr hcase), hws]
      rfl
    · intro hlt
      exact absurd hlt (not_lt.mpr hcase)

/-- Concrete tick environment: all chat-SDK calls succeed and `random.sample`
picks the first `k` indices. -/
def envW : Env :=
  { now := 5, channelExists := fun _ => true, fetchMessageOk := fun _ _ => true,
    editOk := fun _ _ => true, pick := fun _ k => List.range k }

/-- A due giveaway row: one winner wanted, deadline at time 0, not ended. -/
def gW : Giveaway :=
  { id := 1, message_id := 10, channel_id := 5, end_time := 0,
    prize := "prize", winners_count := 1, host_id := 9, ended := false }

/-- A store holding `gW` and a single participant row `(1, 42)`. -/
def sW : Store := { giveaways := [gW], participants := [(1, 42)] }

/-- Witness for C1 at the concrete store `sW`. -/
theorem draw_due_giveaway_correct_witness :
    ∃ r, processRecord envW sW gW =
        Except.ok (markEnded sW gW.id,
          [Effect.editAnnouncement gW.channel_id gW.message_id r,
           Effect.sqlSetEnded gW.id]) ∧
      (((participantsOf sW gW.id).length : Int) < gW.winners_count →
        r = DrawResult.insufficient) ∧
      (gW.winners_count ≤ ((participantsOf sW gW.id).length : Int) →
        ∃ ws, r = DrawResult.winners ws ∧ (ws.length : Int) = gW.winners_count ∧
          ws.Nodup ∧ ∀ u ∈ ws, u ∈ participantsOf sW gW.id) ∧
      (∀ g2 ∈ (markEnded sW gW.id).giveaways, g2.id = gW.id → g2.ended = true) :=
  draw_due_giveaway_correct envW sW gW sampleOk_range (by decide) (by decide) rfl rfl rfl

/-! ## C2: monotonicity of the `ended` flag -/

/-- Rowwise preservation of the `giveaways` table: same rows in the same order
(no insertion or deletion), each row keeping its id, and `ended` moving only from
`FALSE` to `TRUE`, never back. -/
def RowsPreserved (l l2 : List Giveaway) : Prop :=
  List.Forall₂ (fun g g2 => g2.id = g.id ∧ (g.ended = true → g2.ended = true)) l l2

theorem RowsPreserved.refl (l : List Giveaway) : RowsPreserved l l :=
  List.forall₂_same.mpr (fun _ _ => ⟨rfl, fun h => h⟩)

theorem RowsPreserved.trans {a b c : List Giveaway}
    (h1 : RowsPreserved a b) (h2 : RowsPreserved b c) : RowsPreserved a c := by
  unfold RowsPreserved at h1 h2 ⊢
  induction h1 generalizing c with
  | nil =>
    cases h2
    exact List.Forall₂.nil
  | cons hab _ ih =>
    cases h2 with
    | cons hbc h2 =>
      exact List.Forall₂.cons ⟨hbc.1.trans hab.1, fun h => hbc.2 (hab.2 h)⟩ (ih h2)

/-- The `ended = TRUE` update preserves the table rowwise. -/
theorem rowsPreserved_markEnded (s : Store) (gid : Nat) :
    RowsPreserved s.giveaways (markEnded s gid).giveaways := by
  unfold RowsPreserved markEnded
  rw [List.forall₂_map_right_iff]
  refine List.forall₂_same.mpr (fun g _ => ?_)
  by_cases h : g.id = gid
  · rw [if_pos h]
    exact ⟨rfl, fun _ => rfl⟩
  · rw [if_neg h]
    exact ⟨rfl, fun hh => hh⟩

/-- Case analysis of one record's processing: either the record was skipped
(store untouched, no effects), or the draw completed: the store change is exactly
the `ended = TRUE` update and the trace is the edit followed by the update. -/
theorem processRecord_cases (env : Env) (s : Store) (g : Giveaway)
    (s1 : Store) (effs : List Effect)
    (h : processRecord env s g = Except.ok (s1, effs)) :
    (s1 = s ∧ effs = []) ∨
    (s1 = markEnded s g.id ∧
      ∃ r, drawResult env.pick (participantsOf s g.id) g.winners_count = Except.ok r ∧
        effs = [Effect.editAnnouncement g.channel_id g.message_id r,
                Effect.sqlSetEnded g.id]) := by
  unfold processRecord at h
  by_cases h1 : env.channelExists g.channel_id = false
  · rw [if_pos h1] at h
    simp only [Except.ok.injEq, Prod.mk.injEq] at h
    exact Or.inl ⟨h.1.symm, h.2.symm⟩
  · rw [if_neg h1] at h
    by_cases h2 : env.fetchMessageOk g.channel_id g.message_id = false
    · rw [if_pos h2] at h
      simp only [Except.ok.injEq, Prod.mk.injEq] at h
      exact Or.inl ⟨h.1.symm, h.2.symm⟩
    · rw [if_neg h2] at h
      cases hd : drawResult env.pick (participantsOf s g.id) g.winners_count with
      | error e =>
        rw [hd] at h
        exact absurd h (by simp)
      | ok r =>
        rw [hd] at h
        by_cases h3 : env.editOk g.channel_id g.message_id = true
        · rw [h3] at h
          simp only [if_true, Except.ok.injEq, Prod.mk.injEq] at h
          exact Or.inr ⟨h.1.symm, r, rfl, h.2.symm⟩
        · rw [Bool.not_eq_true] at h3
          rw [h3] at h
          exact absurd h (by simp)

/-- Each completed or skipped record preserves the table rowwise. -/
theorem processRecord_rowsPreserved (env : Env) (s : Store) (g : Giveaway)
    (s1 : Store) (effs : List Effect)
    (h : processRecord env s g = Except.ok (s1, effs)) :
    RowsPreserved s.giveaways s1.giveaways := by
  rcases processRecord_cases env s g s1 effs h with ⟨rfl, -⟩ | ⟨rfl, -⟩
  · exact RowsPreserved.refl _
  · exact rowsPreserved_markEnded s g.id

/-- The scanner loop preserves the table rowwise, whatever its stopping point. -/
theorem runTickGo_rowsPreserved (env : Env) (l : List Giveaway) (s : Store)
    (effs : List Effect) :
    RowsPreserved s.giveaways (runTickGo env l s effs).1.giveaways := by
  induction l generalizing s effs with
  | nil => exact RowsPreserved.refl _
  | cons g rest ih =>
    cases hpr : processRecord env s g with
    | ok p =>
      obtain ⟨s1, es⟩ := p
      have hstep : runTickGo env (g :: rest) s effs = runTickGo env rest s1 (effs ++ es) := by
        conv => lhs; unfold runTickGo
        rw [hpr]
      rw [hstep]
      exact RowsPreserved.trans
        (processRecord_rowsPreserved env s g s1 es hpr) (ih s1 (effs ++ es))
    | error e =>
      have hstep : runTickGo env (g :: rest) s effs = (s, effs, some e) := by
        conv => lhs; unfold runTickGo
        rw [hpr]
      rw [hstep]
      exact RowsPreserved.refl _

/-- C2: the `ended` flag is monotonic. `enter_button` never touches the
`giveaways` table; `epicgiveaway` only appends a fresh row with `ended = FALSE`
(the schema default) and leaves existing rows intact; the scanner tick never
deletes a row, never changes an id, and never reverts `ended` from `TRUE` to
`FALSE` — only the tick's draw step sets it to `TRUE`. -/
theorem ended_flag_monotone :
    (∀ s gid uid, ((join s gid uid).1).giveaways = s.giveaways) ∧
    (∀ now msgId newId s title sponsor duration item winners channelId hostId,
      ((epicgiveaway now msgId newId s title sponsor duration item
          winners channelId hostId).1).giveaways =
        s.giveaways ++
          [newGiveawayRow msgId channelId (now + 60 * duration) item winners hostId newId] ∧
      (newGiveawayRow msgId channelId (now + 60 * duration) item
          winners hostId newId).ended = false) ∧
    (∀ env s, RowsPreserved s.giveaways ((check_giveaways env s).1).giveaways) := by
  refine ⟨fun s gid uid => ?_, fun _ _ _ _ _ _ _ _ _ _ _ => ⟨rfl, rfl⟩, fun env s => ?_⟩
  · unfold join
    by_cases h : (gid, uid) ∈ s.participants
    · rw [if_pos h]
    · rw [if_neg h]
  · exact runTickGo_rowsPreserved env (dueRows s env.now) s []

/-- Witness for C2 at the concrete store `sW`. -/
theorem ended_flag_monotone_witness :
    ((join sW 1 7).1).giveaways = sW.giveaways ∧
    RowsPreserved sW.giveaways ((check_giveaways envW sW).1).giveaways :=
  ⟨ended_flag_monotone.1 sW 1 7, ended_flag_monotone.2.2 envW sW⟩

/-! ## C3: per-record failure isolation in a scanner tick -/

/-- A due giveaway whose announcement edit will fail. -/
def gA : Giveaway :=
  { id := 1, message_id := 10, channel_id := 5, end_time := 0,
    prize := "a", winners_count := 1, host_id := 9, ended := false }

/-- A second due giveaway, independent of `gA`, whose draw would succeed. -/
def gB : Giveaway :=
  { id := 2, message_id := 11, channel_id := 5, end_time := 0,
    prize := "b", winners_count := 1, host_id := 9, ended := false }

/-- A store with both `gA` and `gB` due, one participant each. -/
def sAB : Store := { giveaways := [gA, gB], participants := [(1, 100), (2, 200)] }

/-- Environment in which editing message 10 raises (e.g. `discord.HTTPException`)
while every other chat-SDK call succeeds. -/
def envEditFail : Env :=
  { now := 5, channelExists := fun _ => true, fetchMessageOk := fun _ _ => true,
    editOk := fun _ m => m != 10, pick := fun _ k => List.range k }

/-- C3 counterexample: `gB` is due and perfectly processable in the same tick as
`gA`, yet after the tick in which `gA`'s edit raised, `gB` is still `ended = FALSE`
and the tick aborted with the uncaught exception: an edit failure on one record
does abort processing of the remaining due records. -/
theorem tick_abort_counterexample :
    gB.ended = false ∧ gB.end_time ≤ envEditFail.now ∧
    envEditFail.channelExists gB.channel_id = true ∧
    envEditFail.fetchMessageOk gB.channel_id gB.message_id = true ∧
    envEditFail.editOk gB.channel_id gB.message_id = true ∧
    gB ∈ dueRows sAB envEditFail.now ∧
    check_giveaways envEditFail sAB = (sAB, [], some PyErr.editFailed) ∧
    (∀ g2 ∈ (check_giveaways envEditFail sAB).1.giveaways,
      g2.id = gB.id → g2.ended = false) := by
  decide

/-- C3 amended: only the channel lookup and the message fetch are guarded by the
bare `except`/`continue`: such a failure skips the record (store untouched,
`ended` left `FALSE`, so the record is retried next tick) and the loop moves on;
but a failure of `msg.edit` (or of `random.sample`) is uncaught and aborts the
remaining due records of that tick. -/
theorem tick_failure_isolation (env : Env) (s : Store) (g : Giveaway) :
    ((env.channelExists g.channel_id = false ∨
        env.fetchMessageOk g.channel_id g.message_id = false) →
      processRecord env s g = Except.ok (s, [])) ∧
    (∀ rest effs s1 es, processRecord env s g = Except.ok (s1, es) →
      runTickGo env (g :: rest) s effs = runTickGo env rest s1 (effs ++ es)) ∧
    (∀ rest effs e, processRecord env s g = Except.error e →
      runTickGo env (g :: rest) s effs = (s, effs, some e)) := by
  refine ⟨?_, fun rest effs s1 es hok => ?_, ?_⟩
  swap
  · conv => lhs; unfold runTickGo
    rw [hok]
  · intro h
    unfold processRecord
    by_cases h1 : env.channelExists g.channel_id = false
    · rw [if_pos h1]
    · rw [if_neg h1]
      have h2 : env.fetchMessageOk g.channel_id g.message_id = false := by
        cases h with
        | inl hh => exact absurd hh h1
        | inr hh => exact hh
      rw [if_pos h2]
  · intro rest effs e he
    conv => lhs; unfold runTickGo
    rw [he]

/-- Environment in which the channel lookup fails (`bot.get_channel` returns
nothing) and everything else succeeds. -/
def envNoChan : Env :=
  { now := 5, channelExists := fun _ => false, fetchMessageOk := fun _ _ => true,
    editOk := fun _ _ => true, pick := fun _ k => List.range k }

/-- Witness for the amended C3: a missing channel skips the record untouched,
and a failing edit aborts the rest of the tick. -/
theorem tick_failure_isolation_witness :
    processRecord envNoChan sW gW = Except.ok (sW, []) ∧
    runTickGo envNoChan (gW :: []) sW [] = runTickGo envNoChan [] sW ([] ++ []) ∧
    runTickGo envEditFail (gA :: [gB]) sAB [] = (sAB, [], some PyErr.editFailed) :=
  ⟨(tick_failure_isolation envNoChan sW gW).1 (Or.inl rfl),
   (tick_failure_isolation envNoChan sW gW).2.1 [] [] sW []
     ((tick_failure_isolation envNoChan sW gW).1 (Or.inl rfl)),
   (tick_failure_isolation envEditFail sAB gA).2.2 [gB] [] PyErr.editFailed rfl⟩

/-! ## C4: ordering of the `ended` commit and the announcement rewrite -/

/-- C4 counterexample: a concrete completed draw whose effect trace performs the
announcement rewrite at position 0 and the `ended = TRUE` commit at position 1:
the rewrite precedes the commit, contrary to the claim. -/
theorem edit_precedes_commit_counterexample :
    processRecord envW sW gW =
      Except.ok (markEnded sW 1,
        [Effect.editAnnouncement 5 10 (DrawResult.winners [42]), Effect.sqlSetEnded 1]) ∧
    List.indexOf (Effect.editAnnouncement 5 10 (DrawResult.winners [42]))
        [Effect.editAnnouncement 5 10 (DrawResult.winners [42]), Effect.sqlSetEnded 1] <
      List.indexOf (Effect.sqlSetEnded 1)
        [Effect.editAnnouncement 5 10 (DrawResult.winners [42]), Effect.sqlSetEnded 1] :=
  ⟨rfl, by decide⟩

/-- C4 amended: the order is the reverse of the claim — for every record whose
processing completes, either nothing happened (skip) or the trace is exactly the
announcement rewrite followed by the `ended = TRUE` commit; the commit never
precedes the rewrite. -/
theorem edit_then_commit (env : Env) (s : Store) (g : Giveaway)
    (s1 : Store) (effs : List Effect)
    (h : processRecord env s g = Except.ok (s1, effs)) :
    effs = [] ∨
    ∃ r, effs = [Effect.editAnnouncement g.channel_id g.message_id r,
                 Effect.sqlSetEnded g.id] := by
  rcases processRecord_cases env s g s1 effs h with ⟨-, rfl⟩ | ⟨-, r, -, rfl⟩
  · exact Or.inl rfl
  · exact Or.inr ⟨r, rfl⟩

/-- Witness for the amended C4 at the concrete draw of `gW`. -/
theorem edit_then_commit_witness :
    [Effect.editAnnouncement 5 10 (DrawResult.winners [42]), Effect.sqlSetEnded 1] = [] ∨
    ∃ r, [Effect.editAnnouncement 5 10 (DrawResult.winners [42]), Effect.sqlSetEnded 1] =
      [Effect.editAnnouncement gW.channel_id gW.message_id r, Effect.sqlSetEnded gW.id] :=
  edit_then_commit envW sW gW (markEnded sW gW.id)
    [Effect.editAnnouncement 5 10 (DrawResult.winners [42]), Effect.sqlSetEnded 1] rfl

/-- The empty store. -/
def sEmpty : Store := { giveaways := [], participants := [] }

/-! ## C5: idempotence of join -/

/-- `ON CONFLICT DO NOTHING` keeps the `UNIQUE (giveaway_id, user_id)` invariant. -/
theorem join_preserves_nodup (s : Store) (gid uid : Nat) (h : s.participants.Nodup) :
    ((join s gid uid).1).participants.Nodup := by
  unfold join
  by_cases hm : (gid, uid) ∈ s.participants
  · rw [if_pos hm]
    exact h
  · rw [if_neg hm]
    refine List.nodup_append.mpr ⟨h, List.nodup_singleton _, ?_⟩
    intro a ha hb
    rw [List.mem_singleton] at hb
    subst hb
    exact hm ha

/-- The joined pair is a row after the first join. -/
theorem join_mem (s : Store) (gid uid : Nat) :
    (gid, uid) ∈ ((join s gid uid).1).participants := by
  unfold join
  by_cases hm : (gid, uid) ∈ s.participants
  · rw [if_pos hm]
    exact hm
  · rw [if_neg hm]
    simp

/-- Joining an already-present pair is a complete no-op on the store. -/
theorem join_of_mem (s : Store) (gid uid : Nat) (h : (gid, uid) ∈ s.participants) :
    join s gid uid = (s, joinAck) := by
  unfold join
  rw [if_pos h]

/-- In a duplicate-free list, a member is counted exactly once. -/
theorem count_eq_one_of_mem_of_nodup {α : Type} [BEq α] [LawfulBEq α]
    {l : List α} {a : α} (hnd : l.Nodup) (hmem : a ∈ l) : l.count a = 1 := by
  induction l with
  | nil => cases hmem
  | cons b t ih =>
    rcases List.mem_cons.mp hmem with rfl | hmem2
    · have hnotin : a ∉ t := (List.nodup_cons.mp hnd).1
      rw [List.count_cons_self, List.count_eq_zero_of_not_mem hnotin]
    · have hbt : b ∉ t := (List.nodup_cons.mp hnd).1
      have hne : a ≠ b := fun hh => hbt (hh ▸ hmem2)
      rw [List.count_cons_of_ne hne, ih (List.nodup_cons.mp hnd).2 hmem2]

/-- C5: `join` is idempotent. Under the `UNIQUE (giveaway_id, user_id)` invariant,
a second `join` with the same pair is a complete no-op (identical store and
identical acknowledgment — which is the fixed success acknowledgment), and the
store holds exactly one row for the pair. -/
theorem join_idempotent (s : Store) (gid uid : Nat) (h : s.participants.Nodup) :
    join ((join s gid uid).1) gid uid = join s gid uid ∧
    (join s gid uid).2 = joinAck ∧
    (join ((join s gid uid).1) gid uid).2 = (join s gid uid).2 ∧
    ((join ((join s gid uid).1) gid uid).1).participants.count (gid, uid) = 1 := by
  have hsecond : join ((join s gid uid).1) gid uid = join s gid uid := by
    rw [join_of_mem ((join s gid uid).1) gid uid (join_mem s gid uid)]
    rfl
  refine ⟨hsecond, rfl, by rw [hsecond], ?_⟩
  rw [hsecond]
  exact count_eq_one_of_mem_of_nodup (join_preserves_nodup s gid uid h) (join_mem s gid uid)

/-- Witness for C5: joining twice on an empty store leaves one row. -/
theorem join_idempotent_witness :
    join ((join sEmpty 1 7).1) 1 7 = join sEmpty 1 7 ∧
    (join sEmpty 1 7).2 = joinAck ∧
    (join ((join sEmpty 1 7).1) 1 7).2 = (join sEmpty 1 7).2 ∧
    ((join ((join sEmpty 1 7).1) 1 7).1).participants.count (1, 7) = 1 :=
  join_idempotent sEmpty 1 7 List.nodup_nil

/-! ## C6: argument validation in create -/

/-- C6 counterexample: `epicgiveaway` called with `duration = 0` and `winners = 0`
(both invalid per the claim) still persists the giveaway row and still publishes
the announcement; there is no `InvalidParameters` failure anywhere in the code. -/
theorem create_no_validation_counterexample :
    (epicgiveaway 0 10 1 sEmpty "t" "sp" 0 "item" 0 5 9).1.giveaways =
      [newGiveawayRow 10 5 0 "item" 0 9 1] ∧
    Effect.publishAnnouncement 5 10 ∈
      (epicgiveaway 0 10 1 sEmpty "t" "sp" 0 "item" 0 5 9).2 := by
  exact ⟨rfl, by decide⟩

/-- C6 amended: `epicgiveaway` performs no validation at all: for every argument
list — including `duration ≤ 0` and `winners < 1` — it publishes the announcement
and persists the row (with `end_time` possibly already in the past). -/
theorem create_never_validates (now : Int) (msgId newId : Nat) (s : Store)
    (title sponsor : String) (duration : Int) (item : String) (winners : Int)
    (channelId hostId : Nat) :
    ((epicgiveaway now msgId newId s title sponsor duration item
        winners channelId hostId).1).giveaways =
      s.giveaways ++
        [newGiveawayRow msgId channelId (now + 60 * duration) item winners hostId newId] ∧
    Effect.publishAnnouncement channelId msgId ∈
      (epicgiveaway now msgId newId s title sponsor duration item
        winners channelId hostId).2 :=
  ⟨rfl, List.Mem.tail _ (List.Mem.head _)⟩

/-! ## C7: startup configuration checks -/

/-- C7 counterexample: with the credential present but the store connection string
absent, the process does not terminate at startup: it logs in to the network first,
and the store connection failure only happens afterwards, inside `on_ready`. -/
theorem missing_dburl_counterexample :
    startup (some "x") none = [StartupStep.networkLogin, StartupStep.dbConnect false] ∧
    StartupStep.networkLogin ∈ startup (some "x") none ∧
    StartupStep.exitProcess ∉ startup (some "x") none := by
  decide

/-- C7 amended: startup checks only the bot credential: its absence (or emptiness)
prints an error and terminates the process before any network activity; the store
connection string is never checked at startup — the bot logs in to the network
first, and a missing connection string surfaces only as a failure inside the
ready handler, without terminating the process at startup. -/
theorem startup_checks_token_only (token dbUrl : Option String) :
    (token.getD "" = "" →
      startup token dbUrl = [StartupStep.printTokenMissing, StartupStep.exitProcess]) ∧
    (token.getD "" ≠ "" →
      StartupStep.exitProcess ∉ startup token dbUrl ∧
      StartupStep.networkLogin ∈ startup token dbUrl ∧
      (dbUrl = none → StartupStep.dbConnect false ∈ startup token dbUrl)) := by
  constructor
  · intro h
    unfold startup
    rw [if_pos h]
  · intro h
    unfold startup
    rw [if_neg h]
    cases dbUrl with
    | none => exact ⟨by decide, by decide, fun _ => by decide⟩
    | some u =>
      refine ⟨?_, ?_, fun hh => by cases hh⟩
      · show StartupStep.exitProcess ∉
          [StartupStep.networkLogin, StartupStep.dbConnect true, StartupStep.startTasks]
        decide
      · show StartupStep.networkLogin ∈
          [StartupStep.networkLogin, StartupStep.dbConnect true, StartupStep.startTasks]
        decide

/-- Witness for the amended C7: a missing credential aborts before the network;
a present credential reaches the network login. -/
theorem startup_checks_token_only_witness :
    startup none (some "db") = [StartupStep.printTokenMissing, StartupStep.exitProcess] ∧
    StartupStep.exitProcess ∉ startup (some "x") (some "db") :=
  ⟨(startup_checks_token_only none (some "db")).1 rfl,
   ((startup_checks_token_only (some "x") (some "db")).2 (by decide)).1⟩

/-! ## C8: join performs no openness validation -/

/-- C8: `enter_button` validates nothing about the giveaway: even for a giveaway
whose `end_time` has already passed, as long as it is not yet closed by the
scanner (`ended = FALSE`), a join is accepted — the participant row is present
afterwards and the fixed success acknowledgment is returned. (In fact `join`
never reads the `giveaways` table at all.) -/
theorem join_accepts_after_deadline (s : Store) (now : Int) (g : Giveaway) (uid : Nat)
    (_hmem : g ∈ s.giveaways) (_hdue : g.end_time ≤ now) (_hopen : g.ended = false) :
    (join s g.id uid).2 = joinAck ∧
    (g.id, uid) ∈ ((join s g.id uid).1).participants :=
  ⟨rfl, join_mem s g.id uid⟩

/-- Witness for C8: user 77 joins `gW` at time 5, past its deadline 0. -/
theorem join_accepts_after_deadline_witness :
    (join sW gW.id 77).2 = joinAck ∧
    (gW.id, 77) ∈ ((join sW gW.id 77).1).participants :=
  join_accepts_after_deadline sW 5 gW 77 (by decide) (by decide) rfl

/-! ## C9: behavior for non-positive winners_count -/

/-- A failing draw-result computation makes the record's processing raise. -/
theorem processRecord_eq_of_error (env : Env) (s : Store) (g : Giveaway) (e : PyErr)
    (hc : env.channelExists g.channel_id = true)
    (hm : env.fetchMessageOk g.channel_id g.message_id = true)
    (hd : drawResult env.pick (participantsOf s g.id) g.winners_count = Except.error e) :
    processRecord env s g = Except.error e := by
  unfold processRecord
  rw [hc, hm, hd]
  simp

/-- C9: for a due record with `winners_count ≤ 0` that passes the channel and
message lookups, the insufficient-participants branch is never taken — the
participant count is never below `winners_count` — so `random.sample` is always
reached; and for `winners_count < 0` the sample precondition is violated and the
record's processing raises `ValueError` during the scanner tick. -/
theorem nonpositive_winners_draw (env : Env) (s : Store) (g : Giveaway)
    (hc : env.channelExists g.channel_id = true)
    (hm : env.fetchMessageOk g.channel_id g.message_id = true)
    (hw : g.winners_count ≤ 0) :
    (∀ s1 effs, processRecord env s g = Except.ok (s1, effs) →
      Effect.editAnnouncement g.channel_id g.message_id DrawResult.insufficient ∉ effs) ∧
    (g.winners_count < 0 → processRecord env s g = Except.error PyErr.valueError) := by
  have hnotlt : ¬ ((participantsOf s g.id).length : Int) < g.winners_count := by omega
  constructor
  · intro s1 effs hok hmemEff
    rcases processRecord_cases env s g s1 effs hok with ⟨-, rfl⟩ | ⟨-, r, hd, rfl⟩
    · cases hmemEff
    · have hr : ∃ ws, r = DrawResult.winners ws := by
        unfold drawResult at hd
        rw [if_neg hnotlt] at hd
        cases hps : pySample env.pick (participantsOf s g.id) g.winners_count with
        | ok ws =>
          rw [hps] at hd
          simp only [Except.map, Except.ok.injEq] at hd
          exact ⟨ws, hd.symm⟩
        | error e =>
          rw [hps] at hd
          simp [Except.map] at hd
      obtain ⟨ws, rfl⟩ := hr
      simp only [List.mem_cons, List.not_mem_nil, or_false] at hmemEff
      rcases hmemEff with h1 | h2
      · cases h1
      · cases h2
  · intro hneg
    refine processRecord_eq_of_error env s g PyErr.valueError hc hm ?_
    unfold drawResult pySample
    rw [if_neg hnotlt, if_pos (Or.inl hneg)]
    rfl

/-- A due giveaway asking for a negative number of winners. -/
def gNeg : Giveaway :=
  { id := 3, message_id := 12, channel_id := 5, end_time := 0,
    prize := "n", winners_count := -1, host_id := 9, ended := false }

/-- A store holding only `gNeg`, with no participants. -/
def sNeg : Store := { giveaways := [gNeg], participants := [] }

/-- Witness for C9: with `winners_count = -1` and zero participants the
insufficient branch is skipped and `random.sample` raises `ValueError`. -/
theorem nonpositive_winners_draw_witness :
    processRecord envW sNeg gNeg = Except.error PyErr.valueError :=
  (nonpositive_winners_draw envW sNeg gNeg rfl rfl (by decide)).2 (by decide)

/-! ## C10: frame condition of a draw -/

/-- C10: for every record whose processing completes, the `participants` table is
untouched, and the `giveaways` table is either untouched (skip) or changed exactly
by setting `ended := TRUE` on the rows with that record's id — every other field
and every other row unchanged, no row inserted or deleted; moreover every effect
of the trace is either the announcement edit or the single `ended` update, so the
drawn winner set is never persisted to the store. -/
theorem draw_frame_condition (env : Env) (s : Store) (g : Giveaway)
    (s1 : Store) (effs : List Effect)
    (h : processRecord env s g = Except.ok (s1, effs)) :
    s1.participants = s.participants ∧
    (s1.giveaways = s.giveaways ∨
      s1.giveaways = s.giveaways.map
        (fun r => if r.id = g.id then { r with ended := true } else r)) ∧
    (∀ e ∈ effs, e = Effect.sqlSetEnded g.id ∨
      ∃ r, e = Effect.editAnnouncement g.channel_id g.message_id r) := by
  rcases processRecord_cases env s g s1 effs h with ⟨rfl, rfl⟩ | ⟨rfl, r, -, rfl⟩
  · exact ⟨rfl, Or.inl rfl, by simp⟩
  · refine ⟨rfl, Or.inr rfl, ?_⟩
    intro e he
    simp only [List.mem_cons, List.not_mem_nil, or_false] at he
    rcases he with rfl | rfl
    · exact Or.inr ⟨r, rfl⟩
    · exact Or.inl rfl

/-- Witness for C10 at the concrete draw of `gW`. -/
theorem draw_frame_condition_witness :
    (markEnded sW gW.id).participants = sW.participants ∧
    ((markEnded sW gW.id).giveaways = sW.giveaways ∨
      (markEnded sW gW.id).giveaways = sW.giveaways.map
        (fun r => if r.id = gW.id then { r with ended := true } else r)) ∧
    (∀ e ∈ [Effect.editAnnouncement gW.channel_id gW.message_id (DrawResult.winners [42]),
            Effect.sqlSetEnded gW.id],
      e = Effect.sqlSetEnded gW.id ∨
      ∃ r, e = Effect.editAnnouncement gW.channel_id gW.message_id r) :=
  draw_frame_condition envW sW gW (markEnded sW gW.id)
    [Effect.editAnnouncement gW.channel_id gW.message_id (DrawResult.winners [42]),
     Effect.sqlSetEnded gW.id] rfl

end GiveawayBot
